import Mathlib

/-!
Shallow embedding of the FilterFork cog (`src/filterfork/filterfork.py`).

Text is modelled as `List Char`.  The compiled filter pattern
`re.compile("|".join(rf"\b{re.escape(w)}\b" for w in word_list), flags=re.I)`
is modelled by its matching semantics: each term, being `re.escape`d, matches
only as a literal string; `\b` is the word-boundary predicate; `re.I` compares
characters through lowercasing (`Char.toLower`, faithful on ASCII input);
`findall` scans left to right, tries the alternatives in order at each
position, records the matched slice of the *input* text, and resumes after the
match (advancing one position past a zero-width match).
-/

namespace FilterFork

/-- Python `\w` (word character), restricted to the ASCII fragment:
letters, digits and underscore. -/
def isWordChar (c : Char) : Bool := c.isAlphanum || c == '_'

/-- Case-insensitive normalisation used by `re.I` (ASCII fragment). -/
def lowerList (s : List Char) : List Char := s.map Char.toLower

/-- Case-insensitive equality of character lists. -/
def ciEq (a b : List Char) : Bool := lowerList a == lowerList b

/-- Whether position `i` of `text` holds a word character (out of range is
a non-word position). -/
def wordAt (text : List Char) (i : Nat) : Bool :=
  decide (i < text.length) && isWordChar (text.getD i ' ')

/-- The regex word boundary `\b` between positions `i-1` and `i`. -/
def boundary (text : List Char) (i : Nat) : Bool :=
  ((decide (0 < i)) && wordAt text (i - 1)) != wordAt text i

/-- The slice `text[i : i+n]`. -/
def slice (text : List Char) (i n : Nat) : List Char := (text.drop i).take n

/-- Whether the alternative `\b{re.escape w}\b` matches `text` at position
`i` under `re.I`. -/
def matchTermAt (w text : List Char) (i : Nat) : Bool :=
  decide (i + w.length ≤ text.length) && ciEq (slice text i w.length) w &&
    boundary text i && boundary text (i + w.length)

/-- One scan step of `pattern.findall`: at position `i` try the alternatives
in order; on a match record the matched slice of the input and resume after
it.  `fuel` bounds the recursion (each step advances the position). -/
def findallAux (terms : List (List Char)) (text : List Char) :
    Nat → Nat → List (List Char)
  | _, 0 => []
  | i, fuel + 1 =>
    if i ≤ text.length then
      match terms.find? (fun w => matchTermAt w text i) with
      | some w =>
          slice text i w.length :: findallAux terms text (i + max w.length 1) fuel
      | none => findallAux terms text (i + 1) fuel
    else []

/-- `pattern.findall(text)` for the compiled alternation over `terms`. -/
def findall (terms : List (List Char)) (text : List Char) : List (List Char) :=
  findallAux terms text 0 (text.length + 1)

/-- `filter_hits` (lines 440-471): the effective word list is the union of the
guild list and the channel list; an empty union compiles to no pattern.
The compiled pattern is represented by the word list it was built from. -/
def compileWordList (guildList chanList : List (List Char)) :
    Option (List (List Char)) :=
  let wl := (guildList ++ chanList).dedup
  if wl = [] then none else some wl

/-- Running a compiled pattern (`hits |= set(pattern.findall(text))`);
an absent pattern yields no hits. -/
def applyPattern : Option (List (List Char)) → List Char → List (List Char)
  | none, _ => []
  | some ws, text => (findall ws text).dedup

/-- `filter_hits` on a cache miss: compile from the current lists and match. -/
def filter_hits (guildList chanList : List (List Char)) (text : List Char) :
    List (List Char) :=
  applyPattern (compileWordList guildList chanList) text

example :
    filter_hits ["spam".toList] [] "this is SPAM".toList = ["SPAM".toList] := by
  decide

example : filter_hits ["cat".toList] [] "category".toList = [] := by decide

example : filter_hits ["cat".toList] [] "concatenate".toList = [] := by decide

/-! ## Pattern cache (`pattern_cache`, `invalidate_cache`, lines 392-398, 453-467)

The Python cache is a dict keyed by `(guild, channel)` with `channel = None`
for the guild-wide scope.  We key by `(guild id, optional channel id)`.
`invalidate_cache` pops the exact key, and when `channel is None` also pops
every key `keyset` with `guild in keyset`; since a guild object never equals
a channel object, that is every key whose first component is the guild. -/

abbrev CacheKey := Nat × Option Nat

abbrev PatternCache := List (CacheKey × Option (List (List Char)))

/-- Dict lookup (`self.pattern_cache[(guild, channel)]`): first matching
entry, `none` when the key is absent. -/
def cacheLookup (cache : PatternCache) (k : CacheKey) :
    Option (Option (List (List Char))) :=
  (cache.find? (fun e => e.1 = k)).map (·.2)

/-- Dict store (`self.pattern_cache[(guild, channel)] = pattern`). -/
def cacheStore (cache : PatternCache) (k : CacheKey)
    (v : Option (List (List Char))) : PatternCache :=
  (k, v) :: cache.filter (fun e => e.1 ≠ k)

/-- `invalidate_cache` (lines 392-398). -/
def invalidate_cache (g : Nat) (ch : Option Nat) (cache : PatternCache) :
    PatternCache :=
  let c1 := cache.filter (fun e => e.1 ≠ (g, ch))
  match ch with
  | some _ => c1
  | none => c1.filter (fun e => e.1.1 ≠ g)

/-- The stored filter lists, per guild id and per channel id
(`self.config.guild(guild).filter()` / `self.config.channel(channel).filter()`). -/
structure Store where
  guildFilter : Nat → List (List Char)
  chanFilter : Nat → List (List Char)

/-- The channel word list read by `filter_hits`: present only for a channel
scope. -/
def chanListOf (store : Store) : Option Nat → List (List Char)
  | some c => store.chanFilter c
  | none => []

/-- `filter_hits` with the cache (lines 440-471): use the cached pattern when
present, otherwise compile from the current lists and store the result. -/
def filter_hits_cached (store : Store) (cache : PatternCache) (g : Nat)
    (ch : Option Nat) (text : List Char) :
    List (List Char) × PatternCache :=
  match cacheLookup cache (g, ch) with
  | some pat => (applyPattern pat text, cache)
  | none =>
      let pat := compileWordList (store.guildFilter g) (chanListOf store ch)
      (applyPattern pat text, cacheStore cache (g, ch) pat)

/-! ## Guild and member settings -/

/-- The per-guild settings read by `check_filter` (`default_guild_settings`,
lines 27-35; the name-filter fields are not modelled). -/
structure GuildData where
  filterban_count : Int
  filterban_time : Int
  filtermute_count : Int
  filtermute_time : Int
  deriving DecidableEq, Repr

/-- The per-member escalation state (`default_member_settings`, lines 36-41).
Python stores timestamps as numbers; we use `Int`. -/
structure MemberData where
  filterban_count : Int
  filterban_next_reset_time : Int
  filtermute_count : Int
  filtermute_next_reset_time : Int
  deriving DecidableEq, Repr

/-- The default member state (all zeroes). -/
def MemberData.zero : MemberData :=
  ⟨0, 0, 0, 0⟩

/-! ## Config setters (`filter_ban` lines 119-151, `filter_mute` lines 154-186)

Each returns the new guild data and whether a configuration was stored
(`false` means the submission was rejected with no change). -/

/-- `filter_ban` (lines 136-151). -/
def filter_ban (gd : GuildData) (count timeframe : Int) : GuildData × Bool :=
  if (decide (count ≤ 0)) ≠ (decide (timeframe ≤ 0)) then (gd, false)
  else if count = 0 ∧ timeframe = 0 then
    ({ gd with filterban_count := 0, filterban_time := 0 }, true)
  else
    ({ gd with filterban_count := count, filterban_time := timeframe }, true)

/-- `filter_mute` (lines 171-186). -/
def filter_mute (gd : GuildData) (count timeframe : Int) : GuildData × Bool :=
  if (decide (count ≤ 0)) ≠ (decide (timeframe ≤ 0)) then (gd, false)
  else if count = 0 ∧ timeframe = 0 then
    ({ gd with filtermute_count := 0, filtermute_time := 0 }, true)
  else
    ({ gd with filtermute_count := count, filtermute_time := timeframe }, true)

/-! ## `check_filter` (lines 473-578) -/

/-- The externally observable side effects of one `check_filter` run, in
program order.  `muteInvoke` and `caseFilterMute` are the effects of
lines 565-578; they are unreachable, because line 561 reads the unbound
name `ctx` and evaluation raises `NameError` first (`nameErrorCtx`). -/
inductive Event where
  | caseFilterHit (hits : List (List Char))
  | deleteAttempt
  | noticeAttempt
  | dispatchDelete (hits : List (List Char))
  | setBanCount (n : Int)
  | banAttempt
  | caseFilterBan
  | setMuteCount (n : Int)
  | nameErrorCtx
  | muteInvoke
  | caseFilterMute
  deriving DecidableEq, Repr

/-- The ban-track reset pass (lines 488-495): when the mechanism is
configured and the event time has reached the stored reset time, push the
reset time forward and zero a positive count. -/
def resetBan (gd : GuildData) (t : Int) (md : MemberData) : MemberData :=
  if gd.filterban_count > 0 ∧ gd.filterban_time > 0 then
    if t ≥ md.filterban_next_reset_time then
      { md with
        filterban_next_reset_time := t + gd.filterban_time,
        filterban_count := if md.filterban_count > 0 then 0 else md.filterban_count }
    else md
  else md

/-- The mute-track reset pass (lines 496-503). -/
def resetMute (gd : GuildData) (t : Int) (md : MemberData) : MemberData :=
  if gd.filtermute_count > 0 ∧ gd.filtermute_time > 0 then
    if t ≥ md.filtermute_next_reset_time then
      { md with
        filtermute_next_reset_time := t + gd.filtermute_time,
        filtermute_count := if md.filtermute_count > 0 then 0 else md.filtermute_count }
    else md
  else md

/-- The ban escalation phase (lines 538-556), reached after a successful
delete and notice: increment and persist the count, and when the threshold
is reached inside the live window attempt the ban (`banOk` is the outcome
of `guild.ban`; on success a `filterban` case is logged). -/
def banPhase (gd : GuildData) (t : Int) (banOk : Bool) (md : MemberData) :
    MemberData × List Event :=
  if gd.filterban_count > 0 ∧ gd.filterban_time > 0 then
    let c := md.filterban_count + 1
    let md' := { md with filterban_count := c }
    if c ≥ gd.filterban_count ∧ t < md.filterban_next_reset_time then
      if banOk then (md', [.setBanCount c, .banAttempt, .caseFilterBan])
      else (md', [.setBanCount c, .banAttempt])
    else (md', [.setBanCount c])
  else (md, [])

/-- The mute escalation phase (lines 557-578): increment and persist the
count for member authors; when the threshold is reached inside the live
window, line 561 evaluates the unbound name `ctx` and raises `NameError`,
so no mute is invoked and no `filtermute` case is logged. -/
def mutePhase (gd : GuildData) (t : Int) (isMember : Bool) (md : MemberData) :
    MemberData × List Event :=
  if gd.filtermute_count > 0 ∧ gd.filtermute_time > 0 ∧ isMember then
    let c := md.filtermute_count + 1
    let md' := { md with filtermute_count := c }
    if c ≥ gd.filtermute_count ∧ t < md.filtermute_next_reset_time then
      (md', [.setMuteCount c, .nameErrorCtx])
    else (md', [.setMuteCount c])
  else (md, [])

/-- `check_filter` (lines 473-578) as a function of the guild settings, the
author's member state, the message timestamp `t`, the hit set computed by
`filter_hits` on the message content (line 505), whether the author is a
`discord.Member`, and the outcomes of the three fallible platform calls
(`message.delete()`, the in-channel notice `notify_channel.send`, and
`guild.ban`).  Returns the final member state and the effect trace. -/
def check_filter (gd : GuildData) (md : MemberData) (t : Int)
    (hits : List (List Char)) (isMember deleteOk noticeOk banOk : Bool) :
    MemberData × List Event :=
  let md2 := resetMute gd t (resetBan gd t md)
  if hits = [] then (md2, [])
  else if deleteOk = false then (md2, [.caseFilterHit hits, .deleteAttempt])
  else if noticeOk = false then
    (md2, [.caseFilterHit hits, .deleteAttempt, .noticeAttempt])
  else
    ((mutePhase gd t isMember (banPhase gd t banOk md2).1).1,
     [.caseFilterHit hits, .deleteAttempt, .noticeAttempt, .dispatchDelete hits]
       ++ (banPhase gd t banOk md2).2
       ++ (mutePhase gd t isMember (banPhase gd t banOk md2).1).2)

/-! ## Filter-list mutation (`add_to_filter`, lines 400-418) -/

/-- `add_to_filter`: append the lowercased form of each submitted word that
is non-empty and not already stored; report whether anything was added.
Words are `List Char` and lowercasing is `lowerList`. -/
def add_to_filter (cur : List (List Char)) :
    List (List Char) → List (List Char) × Bool
  | [] => (cur, false)
  | w :: ws =>
      if lowerList w ∉ cur ∧ w ≠ [] then
        ((add_to_filter (cur ++ [lowerList w]) ws).1, true)
      else add_to_filter cur ws

/-! ## `red_delete_data_for_user` (lines 48-61) -/

/-- The requester kinds of a data-deletion directive. -/
inductive Requester where
  | discordDeletedUser
  | owner
  | user
  | userStrict
  deriving DecidableEq, Repr

/-- All stored member data: per guild id, the members with stored state. -/
abbrev AllMembers := List (Nat × List (Nat × MemberData))

/-- `red_delete_data_for_user`: only the `discord_deleted_user` requester is
served (line 54); for it, every guild whose data mentions the user has that
member scope cleared. -/
def red_delete_data_for_user (requester : Requester) (uid : Nat)
    (allMembers : AllMembers) : AllMembers :=
  if requester ≠ Requester.discordDeletedUser then allMembers
  else
    allMembers.map (fun gdata =>
      if gdata.2.any (fun p => p.1 = uid) then
        (gdata.1, gdata.2.filter (fun p => p.1 ≠ uid))
      else gdata)

/-! ## Helper lemmas -/

theorem resetBan_off (gd : GuildData) (t : Int) (md : MemberData)
    (h : ¬(gd.filterban_count > 0 ∧ gd.filterban_time > 0)) :
    resetBan gd t md = md := by
  unfold resetBan; split_ifs <;> simp_all

theorem resetMute_off (gd : GuildData) (t : Int) (md : MemberData)
    (h : ¬(gd.filtermute_count > 0 ∧ gd.filtermute_time > 0)) :
    resetMute gd t md = md := by
  unfold resetMute; split_ifs <;> simp_all

theorem resetMute_ban_fields (gd : GuildData) (t : Int) (md : MemberData) :
    (resetMute gd t md).filterban_count = md.filterban_count ∧
    (resetMute gd t md).filterban_next_reset_time = md.filterban_next_reset_time := by
  unfold resetMute; split_ifs <;> simp

theorem resetBan_mute_fields (gd : GuildData) (t : Int) (md : MemberData) :
    (resetBan gd t md).filtermute_count = md.filtermute_count ∧
    (resetBan gd t md).filtermute_next_reset_time = md.filtermute_next_reset_time := by
  unfold resetBan; split_ifs <;> simp

theorem banPhase_off (gd : GuildData) (t : Int) (banOk : Bool) (md : MemberData)
    (h : ¬(gd.filterban_count > 0 ∧ gd.filterban_time > 0)) :
    banPhase gd t banOk md = (md, []) := by
  simp only [banPhase]; split_ifs <;> simp_all

theorem mutePhase_off (gd : GuildData) (t : Int) (isMember : Bool) (md : MemberData)
    (h : ¬(gd.filtermute_count > 0 ∧ gd.filtermute_time > 0 ∧ isMember = true)) :
    mutePhase gd t isMember md = (md, []) := by
  simp only [mutePhase]; split_ifs <;> simp_all

theorem banPhase_mute_fields (gd : GuildData) (t : Int) (banOk : Bool)
    (md : MemberData) :
    (banPhase gd t banOk md).1.filtermute_count = md.filtermute_count ∧
    (banPhase gd t banOk md).1.filtermute_next_reset_time
      = md.filtermute_next_reset_time := by
  simp only [banPhase]; split_ifs <;> simp

theorem mutePhase_ban_fields (gd : GuildData) (t : Int) (isMember : Bool)
    (md : MemberData) :
    (mutePhase gd t isMember md).1.filterban_count = md.filterban_count ∧
    (mutePhase gd t isMember md).1.filterban_next_reset_time
      = md.filterban_next_reset_time := by
  simp only [mutePhase]; split_ifs <;> simp

theorem banPhase_events (gd : GuildData) (t : Int) (banOk : Bool) (md : MemberData) :
    ∀ e ∈ (banPhase gd t banOk md).2,
      e = Event.setBanCount (md.filterban_count + 1) ∨ e = Event.banAttempt ∨
        e = Event.caseFilterBan := by
  simp only [banPhase]; split_ifs <;> simp

theorem mutePhase_events (gd : GuildData) (t : Int) (isMember : Bool)
    (md : MemberData) :
    ∀ e ∈ (mutePhase gd t isMember md).2,
      e = Event.setMuteCount (md.filtermute_count + 1) ∨ e = Event.nameErrorCtx := by
  simp only [mutePhase]; split_ifs <;> simp

/-! ## Claims -/

/-- C6, counterexample: the submission `count = -2, timeframe = 0` has exactly
one of the two values equal to zero, yet neither setter rejects it: both
accept and store `-2` and `0` unchanged (the guard at lines 136/171 compares
`count <= 0` with `timeframe <= 0`, and both sides hold here). -/
theorem C6_counterexample :
    filter_ban ⟨1, 1, 1, 1⟩ (-2) 0 = (⟨-2, 0, 1, 1⟩, true) ∧
    filter_mute ⟨1, 1, 1, 1⟩ (-2) 0 = (⟨1, 1, -2, 0⟩, true) := by
  decide

/-- C6, amended: a submission in which exactly one of `count`, `timeframe` is
zero *and the other is positive* is rejected by both `filter_ban` and
`filter_mute` at configuration time, with nothing stored. -/
theorem C6_one_zero_other_positive_rejected (gd : GuildData)
    (count timeframe : Int)
    (h : (count = 0 ∧ 0 < timeframe) ∨ (0 < count ∧ timeframe = 0)) :
    filter_ban gd count timeframe = (gd, false) ∧
    filter_mute gd count timeframe = (gd, false) := by
  have hgate : (decide (count ≤ 0)) ≠ (decide (timeframe ≤ 0)) := by
    rcases h with ⟨hc, ht⟩ | ⟨hc, ht⟩ <;> simp <;> omega
  refine ⟨?_, ?_⟩
  · unfold filter_ban; rw [if_pos hgate]
  · unfold filter_mute; rw [if_pos hgate]

/-- C6 witness: the submission `(3, 0)` is rejected by both setters. -/
theorem C6_one_zero_other_positive_rejected_witness :
    filter_ban ⟨0, 0, 0, 0⟩ 3 0 = (⟨0, 0, 0, 0⟩, false) ∧
    filter_mute ⟨0, 0, 0, 0⟩ 3 0 = (⟨0, 0, 0, 0⟩, false) :=
  C6_one_zero_other_positive_rejected ⟨0, 0, 0, 0⟩ 3 0 (Or.inr ⟨by decide, rfl⟩)

/-- C7: with automute configured `(1, 10)`, a fresh member, one hit at `t = 0`
and a successful delete and notice, the mute track triggers
(`1 >= 1` and `0 < 10`), but line 561 then evaluates the unbound name `ctx`
and raises `NameError`: the run ends at `nameErrorCtx`, no mute is invoked
and no `filtermute` case is logged, contradicting the claim. -/
theorem C7_mute_trigger_raises_name_error :
    (check_filter ⟨0, 0, 1, 10⟩ MemberData.zero 0 ["spam".toList] true true true
        true).2 =
      [Event.caseFilterHit ["spam".toList], Event.deleteAttempt,
       Event.noticeAttempt, Event.dispatchDelete ["spam".toList],
       Event.setMuteCount 1, Event.nameErrorCtx] ∧
    Event.muteInvoke ∉
      (check_filter ⟨0, 0, 1, 10⟩ MemberData.zero 0 ["spam".toList] true true
          true true).2 ∧
    Event.caseFilterMute ∉
      (check_filter ⟨0, 0, 1, 10⟩ MemberData.zero 0 ["spam".toList] true true
          true true).2 := by
  decide

/-- C8, counterexample: an erase directive from the `owner` requester leaves
the stored member data of user `42` untouched (line 54 returns early for
every requester other than `discord_deleted_user`), refuting the claim that
the purge happens regardless of the requester. -/
theorem C8_counterexample :
    red_delete_data_for_user Requester.owner 42 [(1, [(42, MemberData.zero)])] =
      [(1, [(42, MemberData.zero)])] := by
  decide

/-- C8, amended: only a `discord_deleted_user` directive purges; for it, the
user's stored violation-window member data is removed from every community,
while any other requester causes no change at all. -/
theorem C8_purge_only_for_deleted_user (uid : Nat) (am : AllMembers) :
    (∀ g ms, (g, ms) ∈ red_delete_data_for_user .discordDeletedUser uid am →
      ∀ p ∈ ms, p.1 ≠ uid) ∧
    (∀ r : Requester, r ≠ .discordDeletedUser →
      red_delete_data_for_user r uid am = am) := by
  constructor
  · intro g ms hmem p hp
    unfold red_delete_data_for_user at hmem
    rw [if_neg (by simp)] at hmem
    rcases List.mem_map.mp hmem with ⟨gdata, hgdata, heq⟩
    by_cases hany : gdata.2.any (fun q => q.1 = uid)
    · rw [if_pos hany] at heq
      have hms : ms = gdata.2.filter (fun q => q.1 ≠ uid) := by
        have := congrArg Prod.snd heq; simpa using this.symm
      subst hms
      have := List.of_mem_filter hp
      simpa using this
    · rw [if_neg hany] at heq
      have hms : ms = gdata.2 := by
        have := congrArg Prod.snd heq; simpa using this.symm
      subst hms
      intro hpe
      exact hany (List.any_eq_true.mpr ⟨p, hp, by simpa using hpe⟩)
  · intro r hr
    unfold red_delete_data_for_user
    rw [if_pos hr]

/-- C8 witness: purging user `42` from a store with members `42` and `43` in
community `1` leaves an entry in which no member id is `42`. -/
theorem C8_purge_only_for_deleted_user_witness :
    ∀ p ∈ [((43 : Nat), MemberData.zero)], p.1 ≠ 42 :=
  (C8_purge_only_for_deleted_user 42
    [(1, [(42, MemberData.zero), (43, MemberData.zero)])]).1 1
    [(43, MemberData.zero)] (by decide)

/-- C10: both setters accept a submission with negative `count` and
`timeframe` and store the negative values unchanged, and for any stored
configuration with `count <= 0` or `timeframe <= 0` the corresponding
mechanism is inert in `check_filter`: the member's fields for that mechanism
are returned unchanged (no window reset, no increment) and the trace holds
no counter write and no ban request for it (mute requests are never emitted
at all, see `Event`). -/
theorem C10_nonpositive_config_disables (gd : GuildData) (count timeframe : Int)
    (hc : count < 0) (ht : timeframe < 0) (md : MemberData) (t : Int)
    (hits : List (List Char)) (isMember deleteOk noticeOk banOk : Bool) :
    filter_ban gd count timeframe =
      ({ gd with filterban_count := count, filterban_time := timeframe }, true) ∧
    filter_mute gd count timeframe =
      ({ gd with filtermute_count := count, filtermute_time := timeframe }, true) ∧
    (gd.filterban_count ≤ 0 ∨ gd.filterban_time ≤ 0 →
      (check_filter gd md t hits isMember deleteOk noticeOk banOk).1.filterban_count
          = md.filterban_count ∧
      (check_filter gd md t hits isMember deleteOk noticeOk
            banOk).1.filterban_next_reset_time
          = md.filterban_next_reset_time ∧
      ∀ e ∈ (check_filter gd md t hits isMember deleteOk noticeOk banOk).2,
        (∀ n, e ≠ Event.setBanCount n) ∧ e ≠ Event.banAttempt) ∧
    (gd.filtermute_count ≤ 0 ∨ gd.filtermute_time ≤ 0 →
      (check_filter gd md t hits isMember deleteOk noticeOk banOk).1.filtermute_count
          = md.filtermute_count ∧
      (check_filter gd md t hits isMember deleteOk noticeOk
            banOk).1.filtermute_next_reset_time
          = md.filtermute_next_reset_time ∧
      ∀ e ∈ (check_filter gd md t hits isMember deleteOk noticeOk banOk).2,
        (∀ n, e ≠ Event.setMuteCount n) ∧ e ≠ Event.nameErrorCtx) := by
  have hb : filter_ban gd count timeframe =
      ({ gd with filterban_count := count, filterban_time := timeframe }, true) := by
    unfold filter_ban
    rw [if_neg (by simp; omega), if_neg (by omega)]
  have hm : filter_mute gd count timeframe =
      ({ gd with filtermute_count := count, filtermute_time := timeframe }, true) := by
    unfold filter_mute
    rw [if_neg (by simp; omega), if_neg (by omega)]
  refine ⟨hb, hm, ?_, ?_⟩
  · intro hoff
    have hoff' : ¬(gd.filterban_count > 0 ∧ gd.filterban_time > 0) := by omega
    have hrb : resetBan gd t md = md := resetBan_off gd t md hoff'
    have hbp : ∀ x, banPhase gd t banOk x = (x, []) :=
      fun x => banPhase_off gd t banOk x hoff'
    unfold check_filter
    rw [hrb]
    split_ifs with h1 h2 h3
    · exact ⟨(resetMute_ban_fields gd t md).1, (resetMute_ban_fields gd t md).2,
        by simp⟩
    · exact ⟨(resetMute_ban_fields gd t md).1, (resetMute_ban_fields gd t md).2,
        by simp⟩
    · exact ⟨(resetMute_ban_fields gd t md).1, (resetMute_ban_fields gd t md).2,
        by simp⟩
    · simp only [hbp]
      refine ⟨?_, ?_, ?_⟩
      · rw [(mutePhase_ban_fields gd t isMember (resetMute gd t md)).1]
        exact (resetMute_ban_fields gd t md).1
      · rw [(mutePhase_ban_fields gd t isMember (resetMute gd t md)).2]
        exact (resetMute_ban_fields gd t md).2
      · intro e he
        simp only [List.append_nil, List.mem_append] at he
        rcases he with h | h
        · fin_cases h <;> simp
        · rcases mutePhase_events gd t isMember (resetMute gd t md) e h with
            h' | h' <;> subst h' <;> simp
  · intro hoff
    have hoff' : ¬(gd.filtermute_count > 0 ∧ gd.filtermute_time > 0) := by omega
    have hrm : ∀ x, resetMute gd t x = x := fun x => resetMute_off gd t x hoff'
    have hmp : ∀ x, mutePhase gd t isMember x = (x, []) :=
      fun x => mutePhase_off gd t isMember x (by
        intro hcontra; exact hoff' ⟨hcontra.1, hcontra.2.1⟩)
    unfold check_filter
    rw [hrm]
    split_ifs with h1 h2 h3
    · exact ⟨(resetBan_mute_fields gd t md).1, (resetBan_mute_fields gd t md).2,
        by simp⟩
    · exact ⟨(resetBan_mute_fields gd t md).1, (resetBan_mute_fields gd t md).2,
        by simp⟩
    · exact ⟨(resetBan_mute_fields gd t md).1, (resetBan_mute_fields gd t md).2,
        by simp⟩
    · simp only [hmp]
      refine ⟨?_, ?_, ?_⟩
      · rw [(banPhase_mute_fields gd t banOk (resetBan gd t md)).1]
        exact (resetBan_mute_fields gd t md).1
      · rw [(banPhase_mute_fields gd t banOk (resetBan gd t md)).2]
        exact (resetBan_mute_fields gd t md).2
      · intro e he
        simp only [List.append_nil, List.mem_append] at he
        rcases he with h | h
        · fin_cases h <;> simp
        · rcases banPhase_events gd t banOk (resetBan gd t md) e h with
            h' | h' | h' <;> subst h' <;> simp

/-- C10 witness: the stored configuration `ban (0,0)`, `mute (-3,-1)` (as
`filter_mute` stores it) disables both mechanisms: a hit at `t = 4` leaves
every member field unchanged and requests nothing. -/
theorem C10_nonpositive_config_disables_witness :
    filter_ban ⟨0, 0, -3, -1⟩ (-3) (-1) = (⟨-3, -1, -3, -1⟩, true) ∧
    filter_mute ⟨0, 0, -3, -1⟩ (-3) (-1) = (⟨0, 0, -3, -1⟩, true) ∧
    ((0 : Int) ≤ 0 ∨ (0 : Int) ≤ 0 →
      (check_filter ⟨0, 0, -3, -1⟩ ⟨0, 0, 0, 0⟩ 4 ["x".toList] true true true
          true).1.filterban_count = 0 ∧
      (check_filter ⟨0, 0, -3, -1⟩ ⟨0, 0, 0, 0⟩ 4 ["x".toList] true true true
          true).1.filterban_next_reset_time = 0 ∧
      ∀ e ∈ (check_filter ⟨0, 0, -3, -1⟩ ⟨0, 0, 0, 0⟩ 4 ["x".toList] true true
          true true).2,
        (∀ n, e ≠ Event.setBanCount n) ∧ e ≠ Event.banAttempt) ∧
    ((-3 : Int) ≤ 0 ∨ (-1 : Int) ≤ 0 →
      (check_filter ⟨0, 0, -3, -1⟩ ⟨0, 0, 0, 0⟩ 4 ["x".toList] true true true
          true).1.filtermute_count = 0 ∧
      (check_filter ⟨0, 0, -3, -1⟩ ⟨0, 0, 0, 0⟩ 4 ["x".toList] true true true
          true).1.filtermute_next_reset_time = 0 ∧
      ∀ e ∈ (check_filter ⟨0, 0, -3, -1⟩ ⟨0, 0, 0, 0⟩ 4 ["x".toList] true true
          true true).2,
        (∀ n, e ≠ Event.setMuteCount n) ∧ e ≠ Event.nameErrorCtx) :=
  C10_nonpositive_config_disables ⟨0, 0, -3, -1⟩ (-3) (-1) (by decide)
    (by decide) ⟨0, 0, 0, 0⟩ 4 ["x".toList] true true true true

theorem add_to_filter_append (cur ws : List (List Char)) :
    ∃ ext, (add_to_filter cur ws).1 = cur ++ ext := by
  induction ws generalizing cur with
  | nil => exact ⟨[], by simp [add_to_filter]⟩
  | cons w ws ih =>
    unfold add_to_filter
    split_ifs with h
    · obtain ⟨ext, hext⟩ := ih (cur ++ [lowerList w])
      exact ⟨lowerList w :: ext, by simp [hext]⟩
    · exact ih cur

theorem add_to_filter_mono (cur ws : List (List Char)) (s : List Char)
    (hs : s ∈ cur) : s ∈ (add_to_filter cur ws).1 := by
  obtain ⟨ext, hext⟩ := add_to_filter_append cur ws
  rw [hext]
  exact List.mem_append_left _ hs

theorem add_to_filter_flag (cur ws : List (List Char)) :
    (add_to_filter cur ws).2 = true ↔ (add_to_filter cur ws).1 ≠ cur := by
  induction ws generalizing cur with
  | nil => simp [add_to_filter]
  | cons w ws ih =>
    unfold add_to_filter
    split_ifs with h
    · simp only [true_iff]
      obtain ⟨ext, hext⟩ := add_to_filter_append (cur ++ [lowerList w]) ws
      rw [hext]
      intro heq
      have := congrArg List.length heq
      simp at this
    · exact ih cur

theorem add_to_filter_mem (cur ws : List (List Char)) (s : List Char)
    (hs : s ∈ (add_to_filter cur ws).1) :
    s ∈ cur ∨ ∃ w, w ∈ ws ∧ w ≠ [] ∧ s = lowerList w := by
  induction ws generalizing cur with
  | nil => exact Or.inl (by simpa [add_to_filter] using hs)
  | cons w ws ih =>
    unfold add_to_filter at hs
    split_ifs at hs with h
    · rcases ih _ hs with hmem | ⟨w', hw', hne, hsw⟩
      · rcases List.mem_append.mp hmem with h1 | h1
        · exact Or.inl h1
        · exact Or.inr ⟨w, List.mem_cons_self w ws, h.2, by simpa using h1⟩
      · exact Or.inr ⟨w', List.mem_cons_of_mem w hw', hne, hsw⟩
    · rcases ih _ hs with h1 | ⟨w', hw', hne, hsw⟩
      · exact Or.inl h1
      · exact Or.inr ⟨w', List.mem_cons_of_mem w hw', hne, hsw⟩

theorem add_to_filter_complete (cur ws : List (List Char)) :
    ∀ w ∈ ws, w ≠ [] → lowerList w ∈ (add_to_filter cur ws).1 := by
  induction ws generalizing cur with
  | nil => intro w hw; cases hw
  | cons v ws ih =>
    intro w hw hne
    unfold add_to_filter
    split_ifs with h
    · rcases List.mem_cons.mp hw with rfl | hw'
      · exact add_to_filter_mono _ _ _ (by simp)
      · exact ih _ w hw' hne
    · rcases List.mem_cons.mp hw with rfl | hw'
      · have hmem : lowerList w ∈ cur := by
          by_contra hnc
          exact h ⟨hnc, hne⟩
        exact add_to_filter_mono _ _ _ hmem
      · exact ih _ w hw' hne

theorem add_to_filter_nodup (cur ws : List (List Char)) (h : cur.Nodup) :
    (add_to_filter cur ws).1.Nodup := by
  induction ws generalizing cur with
  | nil => simpa [add_to_filter] using h
  | cons w ws ih =>
    unfold add_to_filter
    split_ifs with hc
    · exact ih _ (by simp [List.nodup_append, h, hc.1])
    · exact ih _ h

theorem add_to_filter_noop (cur ws : List (List Char))
    (h : ∀ w ∈ ws, w = [] ∨ lowerList w ∈ cur) :
    add_to_filter cur ws = (cur, false) := by
  induction ws with
  | nil => rfl
  | cons w ws ih =>
    unfold add_to_filter
    rw [if_neg ?_]
    · exact ih fun v hv => h v (List.mem_cons_of_mem w hv)
    · rcases h w (List.mem_cons_self w ws) with h1 | h1
      · intro hcontra; exact hcontra.2 h1
      · intro hcontra; exact hcontra.1 h1

/-- C9: starting from a stored list with no duplicates and no empty string
(the invariants `add_to_filter` itself maintains), every entry of the result
is an old entry or the lowercased form of a non-empty submitted word; no
empty string is ever stored; no duplicate is ever created; the returned flag
is true exactly when the stored list changed (all-duplicate or all-empty
submissions return false); and repeating the same call changes nothing and
returns false, so the list size is stable. -/
theorem C9_add_to_filter_contract (cur ws : List (List Char))
    (hnd : cur.Nodup) (hne : [] ∉ cur) :
    (∀ s ∈ (add_to_filter cur ws).1,
        s ∈ cur ∨ ∃ w, w ∈ ws ∧ w ≠ [] ∧ s = lowerList w) ∧
    [] ∉ (add_to_filter cur ws).1 ∧
    (add_to_filter cur ws).1.Nodup ∧
    ((add_to_filter cur ws).2 = true ↔ (add_to_filter cur ws).1 ≠ cur) ∧
    add_to_filter (add_to_filter cur ws).1 ws = ((add_to_filter cur ws).1, false) := by
  refine ⟨fun s hs => add_to_filter_mem cur ws s hs, ?_,
    add_to_filter_nodup cur ws hnd, add_to_filter_flag cur ws, ?_⟩
  · intro hmem
    rcases add_to_filter_mem cur ws [] hmem with h | ⟨w, hw, hwne, hl⟩
    · exact hne h
    · refine hwne ?_
      have hmap : w.map Char.toLower = [] := by simpa [lowerList] using hl.symm
      simpa using hmap
  · refine add_to_filter_noop _ ws fun w hw => ?_
    by_cases hwe : w = []
    · exact Or.inl hwe
    · exact Or.inr (add_to_filter_complete cur ws w hw hwe)

/-- C9 witness: adding `["Spam", "", "spam"]` to the empty list stores exactly
`["spam"]`, reports a change, and repeating the call is a no-op. -/
theorem C9_add_to_filter_contract_witness :
    (∀ s ∈ (add_to_filter [] ["Spam".toList, [], "spam".toList]).1,
        s ∈ ([] : List (List Char)) ∨
          ∃ w, w ∈ ["Spam".toList, [], "spam".toList] ∧ w ≠ [] ∧
            s = lowerList w) ∧
    [] ∉ (add_to_filter [] ["Spam".toList, [], "spam".toList]).1 ∧
    (add_to_filter [] ["Spam".toList, [], "spam".toList]).1.Nodup ∧
    ((add_to_filter [] ["Spam".toList, [], "spam".toList]).2 = true ↔
      (add_to_filter [] ["Spam".toList, [], "spam".toList]).1 ≠ []) ∧
    add_to_filter (add_to_filter [] ["Spam".toList, [], "spam".toList]).1
        ["Spam".toList, [], "spam".toList] =
      ((add_to_filter [] ["Spam".toList, [], "spam".toList]).1, false) :=
  C9_add_to_filter_contract [] ["Spam".toList, [], "spam".toList]
    (by decide) (by decide)

theorem slice_length (text : List Char) (i n : Nat) (h : i + n ≤ text.length) :
    (slice text i n).length = n := by
  simp only [slice, List.length_take, List.length_drop]
  omega

theorem findallAux_mem (terms : List (List Char)) (text : List Char) :
    ∀ (fuel i : Nat) (h : List Char), h ∈ findallAux terms text i fuel →
      ∃ j w, w ∈ terms ∧ matchTermAt w text j = true ∧
        h = slice text j w.length := by
  intro fuel
  induction fuel with
  | zero => intro i h hm; simp [findallAux] at hm
  | succ n ih =>
    intro i h hm
    unfold findallAux at hm
    split_ifs at hm with hle
    · cases hfind : terms.find? (fun w => matchTermAt w text i) with
      | none =>
          rw [hfind] at hm
          exact ih _ _ hm
      | some w =>
          rw [hfind] at hm
          rcases List.mem_cons.mp hm with heq | hm'
          · refine ⟨i, w, List.mem_of_find?_eq_some hfind, ?_, heq⟩
            have hp := List.find?_some hfind
            simpa using hp
          · exact ih _ _ hm'
    · simp at hm

theorem filter_hits_mem (guildList chanList : List (List Char))
    (text h : List Char) (hm : h ∈ filter_hits guildList chanList text) :
    ∃ j w, w ∈ guildList ++ chanList ∧ matchTermAt w text j = true ∧
      h = slice text j w.length := by
  unfold filter_hits at hm
  simp only [compileWordList] at hm
  split_ifs at hm with hwl
  · simp [applyPattern] at hm
  · simp only [applyPattern] at hm
    have hm' := List.mem_dedup.mp hm
    obtain ⟨j, w, hw, hmatch, hsl⟩ := findallAux_mem _ _ _ _ _ hm'
    exact ⟨j, w, List.mem_dedup.mp hw, hmatch, hsl⟩

/-- C2, counterexample: with community filter `{"spam"}` and empty channel
filter, the message `"this is SPAM"` yields the hit `"SPAM"` — the matched
substring of the input in its raw casing (as `pattern.findall` returns it) —
and not the lowercased canonical term `"spam"` the claim requires. -/
theorem C2_counterexample :
    "SPAM".toList ∈ filter_hits ["spam".toList] [] "this is SPAM".toList ∧
    "spam".toList ∉ filter_hits ["spam".toList] [] "this is SPAM".toList := by
  decide

/-- C2, amended: every hit returned by `filter_hits` is a slice of the input
text in its raw input casing, at a position where some stored term matched
case-insensitively between word boundaries (`matchTermAt`); the hit is the
input slice, not the stored term's lowercased canonical form. -/
theorem C2_hits_are_raw_input_slices (guildList chanList : List (List Char))
    (text h : List Char) (hm : h ∈ filter_hits guildList chanList text) :
    ∃ j w, w ∈ guildList ++ chanList ∧ matchTermAt w text j = true ∧
      h = slice text j w.length :=
  filter_hits_mem guildList chanList text h hm

/-- C2 witness: the raw-cased hit `"SPAM"` on `"this is SPAM"` is the slice
of the input at the position where the stored term `"spam"` matched. -/
theorem C2_hits_are_raw_input_slices_witness :
    ∃ j w, w ∈ ["spam".toList] ++ [] ∧
      matchTermAt w "this is SPAM".toList j = true ∧
      "SPAM".toList = slice "this is SPAM".toList j w.length :=
  C2_hits_are_raw_input_slices ["spam".toList] [] "this is SPAM".toList
    "SPAM".toList (by decide)

/-- Hits that lowercase to `"cat"` are impossible on a text in which no
position carries a case-insensitive occurrence of `cat` flanked by word
boundaries on both sides. -/
theorem no_cat_hit (guildList chanList : List (List Char)) (text : List Char)
    (hno : ∀ jj : Nat, jj < text.length + 1 →
      ¬(jj + 3 ≤ text.length ∧ lowerList (slice text jj 3) = "cat".toList ∧
        boundary text jj = true ∧ boundary text (jj + 3) = true)) :
    ∀ h ∈ filter_hits guildList chanList text, lowerList h ≠ "cat".toList := by
  intro h hm hlow
  obtain ⟨j, w, hw, hmatch, hsl⟩ := filter_hits_mem _ _ _ _ hm
  simp only [matchTermAt, Bool.and_eq_true, decide_eq_true_eq] at hmatch
  obtain ⟨⟨⟨hlen, hci⟩, hb1⟩, hb2⟩ := hmatch
  have hwlen : w.length = 3 := by
    have hcl : ("cat".toList).length = 3 := rfl
    have h2 : (lowerList h).length = ("cat".toList).length := by rw [hlow]
    rw [hcl] at h2
    have h3 : h.length = 3 := by simpa [lowerList] using h2
    rw [hsl, slice_length _ _ _ hlen] at h3
    exact h3
  rw [hwlen] at hsl hb2 hlen
  have hkey : lowerList (slice text j 3) = "cat".toList := by
    rw [← hsl]; exact hlow
  exact hno j (by omega) ⟨hlen, hkey, hb1, hb2⟩

/-- C4: for every pair of filter lists whose union contains the term
`"cat"` (indeed for arbitrary term lists), the texts `"category"` and
`"concatenate"` produce no hit that lowercases to `"cat"`: every alternative
of the compiled pattern is wrapped in word boundaries, so a term never
matches as a substring of a larger token. -/
theorem C4_word_boundary_blocks_substrings
    (guildList chanList : List (List Char))
    (hcat : "cat".toList ∈ guildList ++ chanList) :
    (∀ h ∈ filter_hits guildList chanList "category".toList,
      lowerList h ≠ "cat".toList) ∧
    (∀ h ∈ filter_hits guildList chanList "concatenate".toList,
      lowerList h ≠ "cat".toList) :=
  ⟨no_cat_hit guildList chanList "category".toList (by decide),
   no_cat_hit guildList chanList "concatenate".toList (by decide)⟩

/-- C4 witness: with the community filter `{"cat"}` itself, neither
`"category"` nor `"concatenate"` produces a hit lowercasing to `"cat"`. -/
theorem C4_word_boundary_blocks_substrings_witness :
    (∀ h ∈ filter_hits ["cat".toList] [] "category".toList,
      lowerList h ≠ "cat".toList) ∧
    (∀ h ∈ filter_hits ["cat".toList] [] "concatenate".toList,
      lowerList h ≠ "cat".toList) :=
  C4_word_boundary_blocks_substrings ["cat".toList] [] (by decide)

theorem find?_filter_of_unmatched (l : PatternCache)
    (q : CacheKey × Option (List (List Char)) → Bool) (k : CacheKey)
    (h : ∀ e ∈ l, ¬ q e = true → e.1 ≠ k) :
    (l.filter q).find? (fun e => e.1 = k) = l.find? (fun e => e.1 = k) := by
  induction l with
  | nil => rfl
  | cons e l ih =>
    by_cases hq : q e = true
    · rw [List.filter_cons_of_pos hq]
      by_cases hk : e.1 = k
      · rw [List.find?_cons_of_pos _ (by simpa using hk),
          List.find?_cons_of_pos _ (by simpa using hk)]
      · rw [List.find?_cons_of_neg _ (by simpa using hk),
          List.find?_cons_of_neg _ (by simpa using hk)]
        exact ih fun e' he' => h e' (List.mem_cons_of_mem e he')
    · rw [List.filter_cons_of_neg (by simpa using hq)]
      have hk : e.1 ≠ k := h e (List.mem_cons_self e l) hq
      rw [List.find?_cons_of_neg _ (by simpa using hk)]
      exact ih fun e' he' => h e' (List.mem_cons_of_mem e he')

theorem cacheLookup_invalidate_same_guild (g : Nat) (cache : PatternCache)
    (ch : Option Nat) :
    cacheLookup (invalidate_cache g none cache) (g, ch) = none := by
  have hfind : (invalidate_cache g none cache).find?
      (fun e => e.1 = (g, ch)) = none := by
    rw [List.find?_eq_none]
    intro e he
    simp only [invalidate_cache] at he
    have hg : e.1.1 ≠ g := by
      have := (List.mem_filter.mp he).2
      simpa using this
    intro hc
    have : e.1 = (g, ch) := by simpa using hc
    exact hg (by rw [this])
  simp [cacheLookup, hfind]

/-- C3: `invalidate_cache` for a community removes the community-scope cache
entry and every channel-scope entry of that community while leaving other
communities' entries untouched; for a channel it removes exactly that
channel's entry; consequently, the next `filter_hits` lookup on every
invalidated scope misses the cache and compiles from the current stored term
sets (whatever mutation produced them), never a stale pattern. -/
theorem C3_invalidation_gives_fresh_compile (g : Nat) (cache : PatternCache) :
    (∀ ch : Option Nat,
      cacheLookup (invalidate_cache g none cache) (g, ch) = none) ∧
    (∀ k : CacheKey, k.1 ≠ g →
      cacheLookup (invalidate_cache g none cache) k = cacheLookup cache k) ∧
    (∀ c : Nat,
      cacheLookup (invalidate_cache g (some c) cache) (g, some c) = none ∧
      ∀ k : CacheKey, k ≠ (g, some c) →
        cacheLookup (invalidate_cache g (some c) cache) k = cacheLookup cache k) ∧
    (∀ (store : Store) (ch : Option Nat) (text : List Char),
      (filter_hits_cached store (invalidate_cache g none cache) g ch text).1 =
        filter_hits (store.guildFilter g) (chanListOf store ch) text) ∧
    (∀ (store : Store) (c : Nat) (text : List Char),
      (filter_hits_cached store (invalidate_cache g (some c) cache) g (some c)
          text).1 =
        filter_hits (store.guildFilter g) (store.chanFilter c) text) := by
  have hsome : ∀ (c : Nat),
      cacheLookup (invalidate_cache g (some c) cache) (g, some c) = none := by
    intro c
    have hfind : (invalidate_cache g (some c) cache).find?
        (fun e => e.1 = (g, some c)) = none := by
      rw [List.find?_eq_none]
      intro e he
      simp only [invalidate_cache] at he
      have hne : e.1 ≠ (g, some c) := by
        have := (List.mem_filter.mp he).2
        simpa using this
      simpa using hne
    simp [cacheLookup, hfind]
  refine ⟨cacheLookup_invalidate_same_guild g cache, ?_, ?_, ?_, ?_⟩
  · intro k hk
    unfold cacheLookup
    simp only [invalidate_cache]
    rw [find?_filter_of_unmatched, find?_filter_of_unmatched]
    all_goals
      intro e he hq heq
      first
      | · have h1 : e.1 = (g, none) := by simpa using hq
          exact hk (by rw [← heq, h1])
      | · have h1 : e.1.1 = g := by simpa using hq
          exact hk (by rw [← heq]; exact h1)
  · intro c
    refine ⟨hsome c, ?_⟩
    intro k hk
    unfold cacheLookup
    simp only [invalidate_cache]
    rw [find?_filter_of_unmatched]
    intro e he hq heq
    have : e.1 = (g, some c) := by simpa using hq
    exact hk (by rw [← heq]; exact this)
  · intro store ch text
    unfold filter_hits_cached
    rw [cacheLookup_invalidate_same_guild g cache ch]
    rfl
  · intro store c text
    unfold filter_hits_cached
    rw [hsome c]
    rfl


/-- C3 witness: invalidating community `1` leaves community `2`'s cached
entry (here: the explicit no-pattern marker) in place. -/
theorem C3_invalidation_gives_fresh_compile_witness :
    cacheLookup (invalidate_cache 1 none [((2, none), none)]) (2, none) =
      cacheLookup [((2, none), none)] (2, none) :=
  (C3_invalidation_gives_fresh_compile 1 [((2, none), none)]).2.1 (2, none)
    (by decide)

theorem banPhase_on (gd : GuildData) (t : Int) (banOk : Bool) (md : MemberData)
    (hon : 0 < gd.filterban_count ∧ 0 < gd.filterban_time) :
    (banPhase gd t banOk md).1.filterban_count = md.filterban_count + 1 ∧
    (Event.banAttempt ∈ (banPhase gd t banOk md).2 ↔
      md.filterban_count + 1 ≥ gd.filterban_count ∧
        t < md.filterban_next_reset_time) ∧
    Event.setBanCount (md.filterban_count + 1) ∈ (banPhase gd t banOk md).2 := by
  simp only [banPhase]
  rw [if_pos hon]
  split_ifs with htrig hok <;> simp_all

theorem mutePhase_on (gd : GuildData) (t : Int) (md : MemberData)
    (hon : 0 < gd.filtermute_count ∧ 0 < gd.filtermute_time) :
    (mutePhase gd t true md).1.filtermute_count = md.filtermute_count + 1 ∧
    (Event.nameErrorCtx ∈ (mutePhase gd t true md).2 ↔
      md.filtermute_count + 1 ≥ gd.filtermute_count ∧
        t < md.filtermute_next_reset_time) ∧
    Event.setMuteCount (md.filtermute_count + 1) ∈ (mutePhase gd t true md).2 := by
  simp only [mutePhase]
  rw [if_pos ⟨hon.1, hon.2, by trivial⟩]
  split_ifs with htrig <;> simp_all

/-- C1: for each mechanism with positive threshold and timeframe and a
non-negative stored count, processing a message at time `t` resets the
window (`count := 0`, `windowEnd := t + timeframe`) exactly when
`t >= windowEnd` — also on non-violating messages, where `check_filter`
performs only the two reset passes — and on a violation (hit set non-empty,
delete and notice succeeded) each counter is incremented by one on top of
the reset-pass state, with the ban escalating exactly when the incremented
count reaches the threshold while `t < windowEnd`, and the mute track
entering its trigger branch under the same rule for member authors. -/
theorem C1_window_reset_and_trigger (gd : GuildData) (md : MemberData) (t : Int)
    (hbc : 0 < gd.filterban_count) (hbt : 0 < gd.filterban_time)
    (hmc : 0 < gd.filtermute_count) (hmt : 0 < gd.filtermute_time)
    (hb0 : 0 ≤ md.filterban_count) (hm0 : 0 ≤ md.filtermute_count)
    (hits : List (List Char)) (isMember deleteOk noticeOk banOk : Bool) :
    (t ≥ md.filterban_next_reset_time →
      (resetBan gd t md).filterban_count = 0 ∧
      (resetBan gd t md).filterban_next_reset_time = t + gd.filterban_time) ∧
    (t < md.filterban_next_reset_time → resetBan gd t md = md) ∧
    (t ≥ md.filtermute_next_reset_time →
      (resetMute gd t md).filtermute_count = 0 ∧
      (resetMute gd t md).filtermute_next_reset_time = t + gd.filtermute_time) ∧
    (t < md.filtermute_next_reset_time → resetMute gd t md = md) ∧
    (check_filter gd md t [] isMember deleteOk noticeOk banOk =
      (resetMute gd t (resetBan gd t md), [])) ∧
    (hits ≠ [] →
      (check_filter gd md t hits isMember true true banOk).1.filterban_count =
        (resetMute gd t (resetBan gd t md)).filterban_count + 1 ∧
      (Event.banAttempt ∈
          (check_filter gd md t hits isMember true true banOk).2 ↔
        (resetMute gd t (resetBan gd t md)).filterban_count + 1 ≥
            gd.filterban_count ∧
          t < (resetMute gd t (resetBan gd t md)).filterban_next_reset_time) ∧
      (isMember = true →
        (check_filter gd md t hits isMember true true banOk).1.filtermute_count =
          (resetMute gd t (resetBan gd t md)).filtermute_count + 1 ∧
        (Event.nameErrorCtx ∈
            (check_filter gd md t hits isMember true true banOk).2 ↔
          (resetMute gd t (resetBan gd t md)).filtermute_count + 1 ≥
              gd.filtermute_count ∧
            t <
              (resetMute gd t
                (resetBan gd t md)).filtermute_next_reset_time))) := by
  refine ⟨?_, ?_, ?_, ?_, ?_, ?_⟩
  · intro hge
    unfold resetBan
    rw [if_pos ⟨hbc, hbt⟩, if_pos hge]
    refine ⟨?_, rfl⟩
    show (if md.filterban_count > 0 then 0 else md.filterban_count) = 0
    split_ifs <;> omega
  · intro hlt
    unfold resetBan
    rw [if_pos ⟨hbc, hbt⟩, if_neg (by omega)]
  · intro hge
    unfold resetMute
    rw [if_pos ⟨hmc, hmt⟩, if_pos hge]
    refine ⟨?_, rfl⟩
    show (if md.filtermute_count > 0 then 0 else md.filtermute_count) = 0
    split_ifs <;> omega
  · intro hlt
    unfold resetMute
    rw [if_pos ⟨hmc, hmt⟩, if_neg (by omega)]
  · simp [check_filter]
  · intro hne
    have hcf : check_filter gd md t hits isMember true true banOk =
        ((mutePhase gd t isMember
            (banPhase gd t banOk (resetMute gd t (resetBan gd t md))).1).1,
         [Event.caseFilterHit hits, Event.deleteAttempt, Event.noticeAttempt,
            Event.dispatchDelete hits] ++
           (banPhase gd t banOk (resetMute gd t (resetBan gd t md))).2 ++
           (mutePhase gd t isMember
             (banPhase gd t banOk (resetMute gd t (resetBan gd t md))).1).2) := by
      simp [check_filter, hne]
    have hbanOn := banPhase_on gd t banOk (resetMute gd t (resetBan gd t md))
      ⟨hbc, hbt⟩
    have hnotP : Event.banAttempt ∉
        [Event.caseFilterHit hits, Event.deleteAttempt, Event.noticeAttempt,
          Event.dispatchDelete hits] := by simp
    have hnotM : Event.banAttempt ∉
        (mutePhase gd t isMember
          (banPhase gd t banOk (resetMute gd t (resetBan gd t md))).1).2 := by
      intro hmem
      rcases mutePhase_events gd t isMember _ _ hmem with h | h <;> simp at h
    refine ⟨?_, ?_, ?_⟩
    · rw [hcf]
      rw [(mutePhase_ban_fields gd t isMember _).1, hbanOn.1]
    · rw [hcf]
      simp only [List.mem_append]
      constructor
      · intro hmem
        rcases hmem with (h | h) | h
        · exact absurd h hnotP
        · exact hbanOn.2.1.mp h
        · exact absurd h hnotM
      · intro hcond
        exact Or.inl (Or.inr (hbanOn.2.1.mpr hcond))
    · intro hism
      subst hism
      have hmuteOn := mutePhase_on gd t
        (banPhase gd t banOk (resetMute gd t (resetBan gd t md))).1 ⟨hmc, hmt⟩
      have hbm := banPhase_mute_fields gd t banOk
        (resetMute gd t (resetBan gd t md))
      have hnotP2 : Event.nameErrorCtx ∉
          [Event.caseFilterHit hits, Event.deleteAttempt, Event.noticeAttempt,
            Event.dispatchDelete hits] := by simp
      have hnotB : Event.nameErrorCtx ∉
          (banPhase gd t banOk (resetMute gd t (resetBan gd t md))).2 := by
        intro hmem
        rcases banPhase_events gd t banOk _ _ hmem with h | h | h <;> simp at h
      refine ⟨?_, ?_⟩
      · rw [hcf, hmuteOn.1, hbm.1]
      · rw [hcf]
        simp only [List.mem_append]
        constructor
        · intro hmem
          rcases hmem with (h | h) | h
          · exact absurd h hnotP2
          · exact absurd h hnotB
          · have := hmuteOn.2.1.mp h
            rwa [hbm.1, hbm.2] at this
        · intro hcond
          refine Or.inr (hmuteOn.2.1.mpr ?_)
          rwa [hbm.1, hbm.2]

/-- C1 witness, the spec's concrete scenario at its trigger point: with
ban and mute config `(2, 10)` and the member state after a violation at
`t = 0` (count `1`, window end `10`), a second violation at `t = 5` attempts
the ban (`1 + 1 >= 2` and `5 < 10`). -/
theorem C1_window_reset_and_trigger_witness :
    Event.banAttempt ∈
      (check_filter ⟨2, 10, 2, 10⟩ ⟨1, 10, 1, 10⟩ 5 ["a".toList] true true true
        true).2 := by
  have h := C1_window_reset_and_trigger ⟨2, 10, 2, 10⟩ ⟨1, 10, 1, 10⟩ 5
    (by decide) (by decide) (by decide) (by decide) (by decide) (by decide)
    ["a".toList] true true true true
  exact (h.2.2.2.2.2 (by decide)).2.1.mpr (by decide)

/-- C5, counterexample: the deletion (`message.delete()`) succeeds but the
subsequent in-channel notice (`notify_channel.send`, inside the same `try`
block, lines 522-535) fails, so the `else` clause is skipped: no
`filter_message_delete` notification is dispatched and no escalation runs,
although the deletion itself succeeded — refuting "if deletion succeeds, the
notification event ... is dispatched and the ban-track increment+check
runs". -/
theorem C5_counterexample :
    (check_filter ⟨1, 10, 1, 10⟩ MemberData.zero 0 ["spam".toList] true true
        false true).2 =
      [Event.caseFilterHit ["spam".toList], Event.deleteAttempt,
       Event.noticeAttempt] ∧
    Event.dispatchDelete ["spam".toList] ∉
      (check_filter ⟨1, 10, 1, 10⟩ MemberData.zero 0 ["spam".toList] true true
        false true).2 ∧
    (check_filter ⟨1, 10, 1, 10⟩ MemberData.zero 0 ["spam".toList] true true
        false true).1.filterban_count = 0 := by
  decide

/-- C5, amended: on a non-empty hit set the `filterhit` case is logged first;
if the deletion fails, the run ends after the delete attempt — member state
is exactly the reset-pass state (no counter increment), and no notification,
counter write, ban or mute request appears — while the logged case remains;
if the deletion *and* the in-channel notice both succeed, the notification
event carrying the matched terms is dispatched, the ban-track
increment+check runs when the ban mechanism is enabled, and the mute-track
increment+check runs for member-type subjects when the mute mechanism is
enabled; if the deletion succeeds but the notice fails, escalation is
likewise skipped. -/
theorem C5_escalation_gated_on_delete_and_notice (gd : GuildData)
    (md : MemberData) (t : Int) (hits : List (List Char)) (hne : hits ≠ [])
    (isMember deleteOk noticeOk banOk : Bool) :
    ((check_filter gd md t hits isMember deleteOk noticeOk banOk).2.head? =
      some (Event.caseFilterHit hits)) ∧
    (deleteOk = false →
      check_filter gd md t hits isMember deleteOk noticeOk banOk =
        (resetMute gd t (resetBan gd t md),
         [Event.caseFilterHit hits, Event.deleteAttempt])) ∧
    (deleteOk = true → noticeOk = false →
      check_filter gd md t hits isMember deleteOk noticeOk banOk =
        (resetMute gd t (resetBan gd t md),
         [Event.caseFilterHit hits, Event.deleteAttempt,
          Event.noticeAttempt])) ∧
    (deleteOk = true → noticeOk = true →
      Event.dispatchDelete hits ∈
        (check_filter gd md t hits isMember deleteOk noticeOk banOk).2 ∧
      (0 < gd.filterban_count ∧ 0 < gd.filterban_time →
        Event.setBanCount
            ((resetMute gd t (resetBan gd t md)).filterban_count + 1) ∈
          (check_filter gd md t hits isMember deleteOk noticeOk banOk).2) ∧
      (0 < gd.filtermute_count ∧ 0 < gd.filtermute_time ∧ isMember = true →
        Event.setMuteCount
            ((resetMute gd t (resetBan gd t md)).filtermute_count + 1) ∈
          (check_filter gd md t hits isMember deleteOk noticeOk banOk).2)) := by
  refine ⟨?_, ?_, ?_, ?_⟩
  · simp only [check_filter]
    rw [if_neg hne]
    split_ifs <;> simp
  · intro hdel
    subst hdel
    simp [check_filter, hne]
  · intro hdel hnot
    subst hdel; subst hnot
    simp [check_filter, hne]
  · intro hdel hnot
    subst hdel; subst hnot
    have hcf : check_filter gd md t hits isMember true true banOk =
        ((mutePhase gd t isMember
            (banPhase gd t banOk (resetMute gd t (resetBan gd t md))).1).1,
         [Event.caseFilterHit hits, Event.deleteAttempt, Event.noticeAttempt,
            Event.dispatchDelete hits] ++
           (banPhase gd t banOk (resetMute gd t (resetBan gd t md))).2 ++
           (mutePhase gd t isMember
             (banPhase gd t banOk (resetMute gd t (resetBan gd t md))).1).2) := by
      simp [check_filter, hne]
    rw [hcf]
    refine ⟨by simp, ?_, ?_⟩
    · intro hon
      have hb := banPhase_on gd t banOk (resetMute gd t (resetBan gd t md)) hon
      simp only [List.mem_append]
      exact Or.inl (Or.inr hb.2.2)
    · intro hon
      obtain ⟨h1, h2, h3⟩ := hon
      subst h3
      have hbm := banPhase_mute_fields gd t banOk
        (resetMute gd t (resetBan gd t md))
      have hm := mutePhase_on gd t
        (banPhase gd t banOk (resetMute gd t (resetBan gd t md))).1 ⟨h1, h2⟩
      rw [← hbm.1]
      simp only [List.mem_append]
      exact Or.inr hm.2.2

/-- C5 witness: ban config `(1, 10)`, fresh member, one hit at `t = 0`,
delete and notice both succeed: the case is logged first and the dispatch
and the ban-track counter write both appear. -/
theorem C5_escalation_gated_on_delete_and_notice_witness :
    ((check_filter ⟨1, 10, 0, 0⟩ MemberData.zero 0 ["spam".toList] true true
        true true).2.head? = some (Event.caseFilterHit ["spam".toList])) ∧
    (true = false →
      check_filter ⟨1, 10, 0, 0⟩ MemberData.zero 0 ["spam".toList] true true
          true true =
        (resetMute ⟨1, 10, 0, 0⟩ 0 (resetBan ⟨1, 10, 0, 0⟩ 0 MemberData.zero),
         [Event.caseFilterHit ["spam".toList], Event.deleteAttempt])) ∧
    (true = true → true = false →
      check_filter ⟨1, 10, 0, 0⟩ MemberData.zero 0 ["spam".toList] true true
          true true =
        (resetMute ⟨1, 10, 0, 0⟩ 0 (resetBan ⟨1, 10, 0, 0⟩ 0 MemberData.zero),
         [Event.caseFilterHit ["spam".toList], Event.deleteAttempt,
          Event.noticeAttempt])) ∧
    (true = true → true = true →
      Event.dispatchDelete ["spam".toList] ∈
        (check_filter ⟨1, 10, 0, 0⟩ MemberData.zero 0 ["spam".toList] true true
          true true).2 ∧
      ((0 : Int) < 1 ∧ (0 : Int) < 10 →
        Event.setBanCount
            ((resetMute ⟨1, 10, 0, 0⟩ 0
                (resetBan ⟨1, 10, 0, 0⟩ 0 MemberData.zero)).filterban_count +
              1) ∈
          (check_filter ⟨1, 10, 0, 0⟩ MemberData.zero 0 ["spam".toList] true
            true true true).2) ∧
      ((0 : Int) < 0 ∧ (0 : Int) < 0 ∧ true = true →
        Event.setMuteCount
            ((resetMute ⟨1, 10, 0, 0⟩ 0
                (resetBan ⟨1, 10, 0, 0⟩ 0 MemberData.zero)).filtermute_count +
              1) ∈
          (check_filter ⟨1, 10, 0, 0⟩ MemberData.zero 0 ["spam".toList] true
            true true true).2)) :=
  C5_escalation_gated_on_delete_and_notice ⟨1, 10, 0, 0⟩ MemberData.zero 0
    ["spam".toList] (by decide) true true true true

end FilterFork
